import Mathlib

/-!
Shallow embedding of the RFC validator of `src/utils/rfcValidator.ts`
(class `RFCValidator`), the core component of the specification.

Modelling conventions:
* JavaScript strings are modelled as `List Char` (`Str` below); the
  error messages produced by the validator are Lean `String`s built with
  the same literal text as the source.
* The source reads the clock via `new Date().getFullYear() % 100`; the
  resulting two-digit current year is an explicit parameter `yy` of the
  embedding (`validate yy rfc`, `generateExample yy t`).  Today the
  source would run with `yy = 26`.
* The regular expressions of the source are fixed-width character-class
  checks; they are embedded as explicit character-class tests over the
  corresponding substrings.
* `String.prototype.toUpperCase` is embedded by an explicit case table
  covering the letters relevant to RFC validation (ASCII `a`–`z` and
  `ñ`); all other characters are left unchanged.
-/

namespace RFCSpec

/-- JavaScript strings are modelled as lists of characters. -/
abbrev Str := List Char

/-- Whitespace characters: the characters removed by `trim()` and matched
by the `\s` class of `replace(/\s+/g, '')` in the source (core set). -/
def wsChars : Str := [' ', '\t', '\n', '\r', '\x0B', '\x0C', ' ']

/-- Whether a character is whitespace. -/
def isWS (c : Char) : Bool := wsChars.contains c

/-- Lower-case letters paired with their upper-case forms: the effect of
`toUpperCase()` on the alphabet relevant to RFC validation. -/
def caseTable : List (Char × Char) :=
  [('a', 'A'), ('b', 'B'), ('c', 'C'), ('d', 'D'), ('e', 'E'), ('f', 'F'),
   ('g', 'G'), ('h', 'H'), ('i', 'I'), ('j', 'J'), ('k', 'K'), ('l', 'L'),
   ('m', 'M'), ('n', 'N'), ('o', 'O'), ('p', 'P'), ('q', 'Q'), ('r', 'R'),
   ('s', 'S'), ('t', 'T'), ('u', 'U'), ('v', 'V'), ('w', 'W'), ('x', 'X'),
   ('y', 'Y'), ('z', 'Z'), ('ñ', 'Ñ')]

/-- Look up a character in a case table, returning it unchanged when absent. -/
def lookupCase : List (Char × Char) → Char → Char
  | [], c => c
  | (a, b) :: rest, c => if c = a then b else lookupCase rest c

/-- Upper-case a single character (`toUpperCase()` restricted to one char). -/
def toUpperChar (c : Char) : Char := lookupCase caseTable c

/-- `String.prototype.trim()`: drop whitespace from both ends. -/
def trim (s : Str) : Str := ((s.dropWhile isWS).reverse.dropWhile isWS).reverse

/-- The normalisation expression of the source,
`rfc.trim().toUpperCase().replace(/\s+/g, '')` (line 55 and elsewhere). -/
def cleanOf (rfc : Str) : Str := ((trim rfc).map toUpperChar).filter (fun c => !isWS c)

/-- `RFCValidator.normalize` (lines 247–250): the empty-string guard
`if (!rfc) return ''` followed by the normalisation expression. -/
def normalize (rfc : Str) : Str := if rfc.isEmpty then [] else cleanOf rfc

/-- The character class `[A-Z&Ñ]` of the source regexes, as the explicit
set of characters it denotes. -/
def nameChars : Str := "ABCDEFGHIJKLMNOPQRSTUVWXYZ&Ñ".data

/-- The character class `[0-9]` / `\d`. -/
def digitChars : Str := "0123456789".data

/-- The character class `[A-Z0-9]`. -/
def homoChars : Str := "ABCDEFGHIJKLMNOPQRSTUVWXYZ0123456789".data

/-- `VALID_CHARS` (line 20). -/
def VALID_CHARS : Str := "ABCDEFGHIJKLMNÑOPQRSTUVWXYZ0123456789&".data

/-- `FORBIDDEN_WORDS` (lines 23–34). -/
def FORBIDDEN_WORDS : List Str :=
  ["BUEI", "BUEY", "CACA", "CACO", "CAGA", "CAGO", "CAKA", "CAKO",
   "COGE", "COGI", "COJA", "COJE", "COJI", "COJO", "COLA", "CULO",
   "FALO", "FETO", "GETA", "GUEY", "JETA", "JOTO", "KACA", "KACO",
   "KAGA", "KAGO", "KAKA", "KAKO", "KOGE", "KOGI", "KOJA", "KOJE",
   "KOJI", "KOJO", "KOLA", "KULO", "LILO", "LOCA", "LOCO", "LOKA",
   "LOKO", "MAME", "MAMO", "MEAR", "MEAS", "MEON", "MIAR", "MION",
   "MOCO", "MOKO", "MULA", "MULO", "NACA", "NACO", "PEDA", "PEDO",
   "PENE", "PIPI", "PITO", "POPO", "PUTA", "PUTO", "QULO", "RATA",
   "ROBA", "ROBE", "ROBO", "RUIN", "SENO", "TETA", "VACA", "VAGA",
   "VAGO", "VAKA", "VUEI", "VUEY", "WUEI", "WUEY"].map String.data

/-- `rfc.substring(a, b)` for `a ≤ b` within bounds. -/
def sub (s : Str) (a b : Nat) : Str := (s.drop a).take (b - a)

/-- `RFC_FISICA_REGEX = /^[A-Z&Ñ]{4}[0-9]{6}[A-Z0-9]{3}$/` (line 16). -/
def fisicaRegex (s : Str) : Bool :=
  s.length == 13 && (sub s 0 4).all (fun c => nameChars.contains c) &&
    (sub s 4 10).all (fun c => digitChars.contains c) &&
    (sub s 10 13).all (fun c => homoChars.contains c)

/-- `RFC_MORAL_REGEX = /^[A-Z&Ñ]{3}[0-9]{6}[A-Z0-9]{3}$/` (line 17). -/
def moralRegex (s : Str) : Bool :=
  s.length == 12 && (sub s 0 3).all (fun c => nameChars.contains c) &&
    (sub s 3 9).all (fun c => digitChars.contains c) &&
    (sub s 9 12).all (fun c => homoChars.contains c)

/-- `/^[A-Z&Ñ]+$/` (line 148). -/
def lettersRegex (t : Str) : Bool := !t.isEmpty && t.all (fun c => nameChars.contains c)

/-- `/^\d{6}$/` (lines 157 and 187). -/
def fechaRegex (f : Str) : Bool := f.length == 6 && f.all (fun c => digitChars.contains c)

/-- `/^[A-Z0-9]{3}$/` (line 211). -/
def homoclaveRegex (h : Str) : Bool := h.length == 3 && h.all (fun c => homoChars.contains c)

/-- The numeric value of a decimal digit character (`parseInt` on digits). -/
def digitVal (c : Char) : Nat := c.toNat - 48

/-- `parseInt(fecha.substring(i, i+2), 10)` on an all-digit string. -/
def twoDigits (f : Str) (i : Nat) : Nat :=
  10 * digitVal (f.getD i '0') + digitVal (f.getD (i + 1) '0')

/-- Error message of line 50. -/
def requiredMsg : String := "RFC es requerido"

/-- Error message of line 61. -/
def lenMsg : String :=
  "RFC debe tener 12 caracteres (Persona Moral) o 13 caracteres (Persona Física)"

/-- Error message of line 81. -/
def fisicaFormatMsg : String := "Formato de RFC de Persona Física inválido"

/-- Error message of line 118. -/
def moralFormatMsg : String := "Formato de RFC de Persona Moral inválido"

/-- Error message of line 149, parameterised by the field name. -/
def lettersMsg (fieldName : String) : String :=
  fieldName ++ " debe contener solo letras válidas (A-Z, Ñ, &)"

/-- Error message of line 158. -/
def fechaNacFormatMsg : String := "Fecha de nacimiento debe tener formato AAMMDD"

/-- Error message of line 168. -/
def mesNacMsg : String := "Mes de nacimiento inválido (01-12)"

/-- Error message of line 173. -/
def diaNacMsg : String := "Día de nacimiento inválido (01-31)"

/-- Error message of line 179. -/
def anioNacMsg : String := "Año de nacimiento parece inválido"

/-- Error message of line 188. -/
def fechaConstFormatMsg : String := "Fecha de constitución debe tener formato AAMMDD"

/-- Error message of line 198. -/
def mesConstMsg : String := "Mes de constitución inválido (01-12)"

/-- Error message of line 203. -/
def diaConstMsg : String := "Día de constitución inválido (01-31)"

/-- Error message of line 212. -/
def homoclaveMsg : String := "Homoclave debe tener 3 caracteres alfanuméricos"

/-- Error message of lines 102 and 134, parameterised by the initials. -/
def forbiddenMsg (ini : Str) : String :=
  "Las iniciales \"" ++ ini.asString ++ "\" no están permitidas en RFC"

/-- Error message of line 222, parameterised by character and 1-based position. -/
def charMsg (c : Char) (pos : Nat) : String :=
  "Carácter inválido encontrado: \"" ++ String.singleton c ++ "\" en posición " ++ Nat.repr pos

/-- `validateLetters` (lines 147–151): the list of errors it appends. -/
def validateLetters (text : Str) (fieldName : String) : List String :=
  if !lettersRegex text then [lettersMsg fieldName] else []

/-- `validateFechaNacimiento` (lines 156–181): the list of errors it appends.
`yy` is the current two-digit year, `new Date().getFullYear() % 100`. -/
def validateFechaNacimiento (yy : Nat) (fecha : Str) : List String :=
  if !fechaRegex fecha then [fechaNacFormatMsg]
  else
    (if twoDigits fecha 2 < 1 ∨ 12 < twoDigits fecha 2 then [mesNacMsg] else []) ++
    (if twoDigits fecha 4 < 1 ∨ 31 < twoDigits fecha 4 then [diaNacMsg] else []) ++
    (if yy + 10 < twoDigits fecha 0 then [anioNacMsg] else [])

/-- `validateFechaConstitucion` (lines 186–205): the list of errors it appends.
It has no year-plausibility check. -/
def validateFechaConstitucion (fecha : Str) : List String :=
  if !fechaRegex fecha then [fechaConstFormatMsg]
  else
    (if twoDigits fecha 2 < 1 ∨ 12 < twoDigits fecha 2 then [mesConstMsg] else []) ++
    (if twoDigits fecha 4 < 1 ∨ 31 < twoDigits fecha 4 then [diaConstMsg] else [])

/-- `validateHomoclave` (lines 210–214): the list of errors it appends. -/
def validateHomoclave (homoclave : Str) : List String :=
  if !homoclaveRegex homoclave then [homoclaveMsg] else []

/-- The loop of `validateCharacters` (lines 219–225), carrying the 0-based index. -/
def validateCharactersAux : Str → Nat → List String
  | [], _ => []
  | c :: rest, i =>
    (if !VALID_CHARS.contains c then [charMsg c (i + 1)] else []) ++
      validateCharactersAux rest (i + 1)

/-- `validateCharacters` (lines 219–225): the list of errors it appends. -/
def validateCharacters (rfc : Str) : List String := validateCharactersAux rfc 0

/-- `validatePersonaFisica` (lines 78–110): the errors accumulated on the
FISICA path.  On regex failure the source returns at once with the single
coarse format error; otherwise the component checks run in source order. -/
def validatePersonaFisica (yy : Nat) (rfc : Str) : List String :=
  if !fisicaRegex rfc then [fisicaFormatMsg]
  else
    validateLetters (sub rfc 0 2) "Apellido paterno" ++
    validateLetters (sub rfc 2 3) "Apellido materno" ++
    validateLetters (sub rfc 3 4) "Nombre" ++
    validateFechaNacimiento yy (sub rfc 4 10) ++
    validateHomoclave (sub rfc 10 13) ++
    (if FORBIDDEN_WORDS.contains (sub rfc 0 4) then [forbiddenMsg (sub rfc 0 4)] else []) ++
    validateCharacters rfc

/-- `validatePersonaMoral` (lines 115–142): the errors accumulated on the
MORAL path (it never consults the current year). -/
def validatePersonaMoral (rfc : Str) : List String :=
  if !moralRegex rfc then [moralFormatMsg]
  else
    validateLetters (sub rfc 0 3) "Razón social" ++
    validateFechaConstitucion (sub rfc 3 9) ++
    validateHomoclave (sub rfc 9 12) ++
    (if FORBIDDEN_WORDS.contains (sub rfc 0 3) then [forbiddenMsg (sub rfc 0 3)] else []) ++
    validateCharacters rfc

/-- `'FISICA' | 'MORAL'`. -/
inductive TipoPersona where
  | FISICA
  | MORAL
deriving DecidableEq, Repr

/-- `RFCAnalysis` (lines 6–12). -/
structure RFCAnalysis where
  isValid : Bool
  tipoPersona : Option TipoPersona
  length : Nat
  format : Str
  errors : List String
deriving DecidableEq, Repr

/-- `RFCValidator.validate` (lines 39–73).  In the source the two variant
validators end with `result.isValid = result.errors.length === 0`; since
the error list on the early-return (regex-failure) branch is non-empty,
setting `isValid` to the emptiness of the accumulated list on both
branches is the same function. -/
def validate (yy : Nat) (rfc : Str) : RFCAnalysis :=
  if rfc.isEmpty then
    { isValid := false, tipoPersona := none, length := 0, format := [],
      errors := [requiredMsg] }
  else
    let cleanRFC := cleanOf rfc
    if cleanRFC.length ≠ 12 ∧ cleanRFC.length ≠ 13 then
      { isValid := false, tipoPersona := none, length := cleanRFC.length,
        format := cleanRFC, errors := [lenMsg] }
    else if cleanRFC.length = 13 then
      { isValid := (validatePersonaFisica yy cleanRFC).isEmpty,
        tipoPersona := some TipoPersona.FISICA, length := cleanRFC.length,
        format := cleanRFC, errors := validatePersonaFisica yy cleanRFC }
    else
      { isValid := (validatePersonaMoral cleanRFC).isEmpty,
        tipoPersona := some TipoPersona.MORAL, length := cleanRFC.length,
        format := cleanRFC, errors := validatePersonaMoral cleanRFC }

/-- `RFCValidator.getTipoPersona` (lines 230–242). -/
def getTipoPersona (rfc : Str) : Option TipoPersona :=
  if rfc.isEmpty then none
  else
    let cleanRFC := cleanOf rfc
    if cleanRFC.length = 13 then some TipoPersona.FISICA
    else if cleanRFC.length = 12 then some TipoPersona.MORAL
    else none

/-- `String(i)` on an integer: decimal representation with a leading minus
sign on negatives. -/
def intStr (i : Int) : Str :=
  if i < 0 then '-' :: (Nat.repr i.natAbs).data else (Nat.repr i.toNat).data

/-- `padStart(2, '0')`. -/
def padStart2 (s : Str) : Str :=
  if s.length < 2 then List.replicate (2 - s.length) '0' ++ s else s

/-- `RFCValidator.generateExample` (lines 301–313).  `yy` is the current
two-digit year `new Date().getFullYear() % 100`; the source computes
`String(currentYear - 25).padStart(2, '0')` with JavaScript (signed)
subtraction. -/
def generateExample (yy : Nat) (tipoPersona : TipoPersona) : Str :=
  let year := padStart2 (intStr ((yy : Int) - 25))
  match tipoPersona with
  | TipoPersona.FISICA => "GOPE".data ++ year ++ "06".data ++ "15".data ++ "ABC".data
  | TipoPersona.MORAL => "TUB".data ++ year ++ "06".data ++ "15".data ++ "ABC".data

/-- The concrete input of the C2 scenario. -/
def gopeInput : Str := "GOPE650615ABC".data

/-- A 12-character MORAL input (valid at current year 26). -/
def tubInput : Str := "TUB010615ABC".data

/-- Thirteen letters `A`: length 13 but the date field is not numeric, so
the FISICA format regex fails while the granular date check also fails. -/
def thirteenA : Str := List.replicate 13 'A'

/-- Twelve letters `A`: length 12 but the date field is not numeric. -/
def twelveA : Str := List.replicate 12 'A'

/-- 13 characters: forbidden leading word `CACA`, month 13, day 40. -/
def cacaInput13 : Str := "CACA991340ABC".data

/-- 14 characters: forbidden leading word `CACA`, month 13, day 40 and a
4-character (wrong-length) homoclave `ABCD`. -/
def cacaInput14 : Str := "CACA991340ABCD".data

/-! ### Helper lemmas about the embedding -/

/-- A case-table lookup on a character outside the table's domain. -/
theorem lookupCase_eq_self (t : List (Char × Char)) (c : Char)
    (h : ∀ p ∈ t, c ≠ p.1) : lookupCase t c = c := by
  induction t with
  | nil => rfl
  | cons p rest ih =>
    obtain ⟨a, b⟩ := p
    have hne : c ≠ a := h (a, b) (List.mem_cons_self _ _)
    simp only [lookupCase, if_neg hne]
    exact ih fun q hq => h q (List.mem_cons_of_mem _ hq)

/-- A case-table lookup either leaves the character unchanged or returns a
member of the table's range. -/
theorem lookupCase_ran (t : List (Char × Char)) (c : Char) :
    lookupCase t c = c ∨ lookupCase t c ∈ t.map Prod.snd := by
  induction t with
  | nil => exact Or.inl rfl
  | cons p rest ih =>
    obtain ⟨a, b⟩ := p
    by_cases hc : c = a
    · right
      simp [lookupCase, hc]
    · rcases ih with h | h
      · left
        simpa [lookupCase, hc] using h
      · right
        simp only [lookupCase, if_neg hc]
        exact List.mem_cons_of_mem _ h

/-- No upper-case output of the case table appears in its domain. -/
theorem caseTable_ran_not_domain :
    ∀ x ∈ caseTable.map Prod.snd, ∀ p ∈ caseTable, x ≠ p.1 := by decide

/-- `toUpperChar` is idempotent. -/
theorem toUpperChar_idem (c : Char) : toUpperChar (toUpperChar c) = toUpperChar c := by
  unfold toUpperChar
  rcases lookupCase_ran caseTable c with h | h
  · rw [h]
    exact h
  · exact lookupCase_eq_self _ _ (caseTable_ran_not_domain _ h)

/-- `dropWhile` is the identity on a list none of whose elements satisfy
the predicate. -/
theorem dropWhile_eq_self_of_all {p : Char → Bool} {l : Str}
    (h : ∀ x ∈ l, p x = false) : l.dropWhile p = l := by
  cases l with
  | nil => rfl
  | cons a rest => simp [List.dropWhile_cons, h a (List.mem_cons_self _ _)]

/-- `dropWhile` empties a list all of whose elements satisfy the predicate. -/
theorem dropWhile_eq_nil_of_all {p : Char → Bool} {l : Str}
    (h : ∀ x ∈ l, p x = true) : l.dropWhile p = [] := by
  induction l with
  | nil => rfl
  | cons a rest ih =>
    simp only [List.dropWhile_cons, h a (List.mem_cons_self _ _), if_true]
    exact ih fun x hx => h x (List.mem_cons_of_mem _ hx)

/-- `trim` is the identity on whitespace-free input. -/
theorem trim_eq_self {l : Str} (h : ∀ x ∈ l, isWS x = false) : trim l = l := by
  unfold trim
  rw [dropWhile_eq_self_of_all h]
  rw [dropWhile_eq_self_of_all fun x hx => h x (List.mem_reverse.mp hx)]
  exact List.reverse_reverse l

/-- `trim` empties all-whitespace input. -/
theorem trim_eq_nil {l : Str} (h : ∀ x ∈ l, isWS x = true) : trim l = [] := by
  unfold trim
  rw [dropWhile_eq_nil_of_all h]
  rfl

/-- Mapping a function that fixes every element is the identity. -/
theorem map_eq_self_of {f : Char → Char} {l : Str}
    (h : ∀ x ∈ l, f x = x) : l.map f = l := by
  induction l with
  | nil => rfl
  | cons a rest ih =>
    simp only [List.map_cons, h a (List.mem_cons_self _ _)]
    rw [ih fun x hx => h x (List.mem_cons_of_mem _ hx)]

/-- Every character of a normalised string is non-whitespace. -/
theorem cleanOf_not_ws {c : Char} {s : Str} (h : c ∈ cleanOf s) : isWS c = false := by
  unfold cleanOf at h
  have := (List.mem_filter.mp h).2
  simpa using this

/-- Every character of a normalised string is fixed by `toUpperChar`. -/
theorem cleanOf_upper {c : Char} {s : Str} (h : c ∈ cleanOf s) : toUpperChar c = c := by
  unfold cleanOf at h
  have hm := (List.mem_filter.mp h).1
  obtain ⟨y, _, hy⟩ := List.mem_map.mp hm
  rw [← hy]
  exact toUpperChar_idem y

/-- The normalisation expression is idempotent. -/
theorem cleanOf_idem (s : Str) : cleanOf (cleanOf s) = cleanOf s := by
  conv_lhs => rw [cleanOf]
  rw [trim_eq_self fun x hx => cleanOf_not_ws hx]
  rw [map_eq_self_of fun x hx => cleanOf_upper hx]
  exact List.filter_eq_self.mpr fun a ha => by simp [cleanOf_not_ws ha]

/-- `normalize` agrees with the inline normalisation expression. -/
theorem normalize_eq_cleanOf (s : Str) : normalize s = cleanOf s := by
  cases s with
  | nil => rfl
  | cons a rest => rfl

/-- An all-whitespace string normalises to the empty string. -/
theorem cleanOf_eq_nil_of_ws {s : Str} (h : ∀ c ∈ s, isWS c = true) : cleanOf s = [] := by
  unfold cleanOf
  rw [trim_eq_nil h]
  rfl

/-- A list whose normalisation is non-empty is itself non-empty. -/
theorem ne_nil_of_cleanOf_length {s : Str} {n : Nat} (h : (cleanOf s).length = n)
    (hn : n ≠ 0) : s ≠ [] := by
  intro hs
  subst hs
  exact hn (by simpa using h.symm)

/-- `isEmpty` is false on a non-empty list. -/
theorem isEmpty_false_of_ne_nil {s : Str} (h : s ≠ []) : s.isEmpty = false := by
  cases s with
  | nil => exact absurd rfl h
  | cons a rest => rfl

/-- `validate` on the empty string: the required-error early return. -/
theorem validate_nil (yy : Nat) :
    validate yy [] = ⟨false, none, 0, [], [requiredMsg]⟩ := rfl

/-- `validate` on a non-empty string whose normalisation has a wrong length:
the length-error early return. -/
theorem validate_len (yy : Nat) (s : Str) (hne : s ≠ [])
    (h12 : (cleanOf s).length ≠ 12) (h13 : (cleanOf s).length ≠ 13) :
    validate yy s = ⟨false, none, (cleanOf s).length, cleanOf s, [lenMsg]⟩ := by
  unfold validate
  rw [isEmpty_false_of_ne_nil hne]
  simp [h12, h13]

/-- `validate` dispatches to the FISICA validator at normalised length 13. -/
theorem validate_fisica (yy : Nat) (s : Str) (h : (cleanOf s).length = 13) :
    validate yy s = ⟨(validatePersonaFisica yy (cleanOf s)).isEmpty,
      some TipoPersona.FISICA, 13, cleanOf s, validatePersonaFisica yy (cleanOf s)⟩ := by
  unfold validate
  rw [isEmpty_false_of_ne_nil (ne_nil_of_cleanOf_length h (by omega))]
  simp [h]

/-- `validate` dispatches to the MORAL validator at normalised length 12. -/
theorem validate_moral (yy : Nat) (s : Str) (h : (cleanOf s).length = 12) :
    validate yy s = ⟨(validatePersonaMoral (cleanOf s)).isEmpty,
      some TipoPersona.MORAL, 12, cleanOf s, validatePersonaMoral (cleanOf s)⟩ := by
  unfold validate
  rw [isEmpty_false_of_ne_nil (ne_nil_of_cleanOf_length h (by omega))]
  simp [h]

/-- Unpacking `RFC_FISICA_REGEX` success into its conjuncts. -/
theorem fisicaRegex_parts {s : Str} (h : fisicaRegex s = true) :
    s.length = 13 ∧ (∀ c ∈ sub s 0 4, nameChars.contains c = true) ∧
      (∀ c ∈ sub s 4 10, digitChars.contains c = true) ∧
      (∀ c ∈ sub s 10 13, homoChars.contains c = true) := by
  simpa [fisicaRegex, Bool.and_eq_true, List.all_eq_true, and_assoc] using h

/-- Unpacking `RFC_MORAL_REGEX` success into its conjuncts. -/
theorem moralRegex_parts {s : Str} (h : moralRegex s = true) :
    s.length = 12 ∧ (∀ c ∈ sub s 0 3, nameChars.contains c = true) ∧
      (∀ c ∈ sub s 3 9, digitChars.contains c = true) ∧
      (∀ c ∈ sub s 9 12, homoChars.contains c = true) := by
  simpa [moralRegex, Bool.and_eq_true, List.all_eq_true, and_assoc] using h

/-- Membership in a narrower substring implies membership in a wider one. -/
theorem mem_sub_mono {s : Str} {a b a' b' : Nat} (haa : a ≤ a') (hab : a' ≤ b')
    (hbb : b' ≤ b) {c : Char} (hc : c ∈ sub s a' b') : c ∈ sub s a b := by
  unfold sub at *
  have h1 : s.drop a' = (s.drop a).drop (a' - a) := by
    rw [List.drop_drop]
    congr 1
    omega
  rw [h1, List.take_drop] at hc
  have h2 : a' - a + (b' - a') = b' - a := by omega
  rw [h2] at hc
  have hc2 : c ∈ (s.drop a).take (b' - a) := List.drop_subset _ _ hc
  have h3 : (s.drop a).take (b' - a) = ((s.drop a).take (b - a)).take (b' - a) := by
    rw [List.take_take]
    congr 1
    omega
  rw [h3] at hc2
  exact List.mem_of_mem_take hc2

/-- The length of a substring. -/
theorem length_sub (s : Str) (a b : Nat) :
    (sub s a b).length = min (b - a) (s.length - a) := by
  simp [sub]

/-- A substring with room on both sides is non-empty. -/
theorem sub_ne_nil {s : Str} {a b : Nat} (h1 : a < b) (h2 : a < s.length) :
    sub s a b ≠ [] := by
  intro hn
  have := length_sub s a b
  rw [hn] at this
  simp at this
  omega

/-- Building a `lettersRegex` success from its conjuncts. -/
theorem lettersRegex_true {t : Str} (h1 : t ≠ [])
    (h2 : ∀ c ∈ t, nameChars.contains c = true) : lettersRegex t = true := by
  simp [lettersRegex, List.isEmpty_iff, h1, List.all_eq_true]
  exact fun c hc => List.elem_iff.mp (h2 c hc)

/-- Building a `fechaRegex` success from its conjuncts. -/
theorem fechaRegex_true {f : Str} (h1 : f.length = 6)
    (h2 : ∀ c ∈ f, digitChars.contains c = true) : fechaRegex f = true := by
  simp [fechaRegex, h1, List.all_eq_true]
  exact fun c hc => List.elem_iff.mp (h2 c hc)

/-- Building a `homoclaveRegex` success from its conjuncts. -/
theorem homoclaveRegex_true {h : Str} (h1 : h.length = 3)
    (h2 : ∀ c ∈ h, homoChars.contains c = true) : homoclaveRegex h = true := by
  simp [homoclaveRegex, h1, List.all_eq_true]
  exact fun c hc => List.elem_iff.mp (h2 c hc)

/-- `validateLetters` is silent on a field passing its regex. -/
theorem validateLetters_nil {t : Str} (fn : String) (h : lettersRegex t = true) :
    validateLetters t fn = [] := by
  simp [validateLetters, h]

/-- `validateHomoclave` is silent on a field passing its regex. -/
theorem validateHomoclave_nil {t : Str} (h : homoclaveRegex t = true) :
    validateHomoclave t = [] := by
  simp [validateHomoclave, h]

/-- Every name-class character is in `VALID_CHARS`. -/
theorem nameChars_valid : ∀ c ∈ nameChars, VALID_CHARS.contains c = true := by decide

/-- Every digit character is in `VALID_CHARS`. -/
theorem digitChars_valid : ∀ c ∈ digitChars, VALID_CHARS.contains c = true := by decide

/-- Every homoclave-class character is in `VALID_CHARS`. -/
theorem homoChars_valid : ∀ c ∈ homoChars, VALID_CHARS.contains c = true := by decide

/-- A 13-character string splits into the three FISICA fields. -/
theorem str13_decomp {s : Str} (h : s.length = 13) :
    s = sub s 0 4 ++ (sub s 4 10 ++ sub s 10 13) := by
  have h1 : sub s 10 13 = s.drop 10 := by
    unfold sub
    exact List.take_of_length_le (by simp [h])
  have h2 : s.drop 10 = (s.drop 4).drop 6 := by
    rw [List.drop_drop]
  have h3 : sub s 4 10 ++ sub s 10 13 = s.drop 4 := by
    rw [h1, h2]
    unfold sub
    exact List.take_append_drop 6 (s.drop 4)
  rw [h3]
  unfold sub
  simp

/-- A 12-character string splits into the three MORAL fields. -/
theorem str12_decomp {s : Str} (h : s.length = 12) :
    s = sub s 0 3 ++ (sub s 3 9 ++ sub s 9 12) := by
  have h1 : sub s 9 12 = s.drop 9 := by
    unfold sub
    exact List.take_of_length_le (by simp [h])
  have h2 : s.drop 9 = (s.drop 3).drop 6 := by
    rw [List.drop_drop]
  have h3 : sub s 3 9 ++ sub s 9 12 = s.drop 3 := by
    rw [h1, h2]
    unfold sub
    exact List.take_append_drop 6 (s.drop 3)
  rw [h3]
  unfold sub
  simp

/-- The character scan is silent when every character is in `VALID_CHARS`. -/
theorem validateCharactersAux_nil {l : Str}
    (h : ∀ c ∈ l, VALID_CHARS.contains c = true) :
    ∀ i, validateCharactersAux l i = [] := by
  induction l with
  | nil => intro i; rfl
  | cons a rest ih =>
    intro i
    simp only [validateCharactersAux, h a (List.mem_cons_self _ _)]
    simpa using ih (fun c hc => h c (List.mem_cons_of_mem _ hc)) (i + 1)

/-- The character scan is silent on a string passing the FISICA regex. -/
theorem fisica_chars_nil {s : Str} (h : fisicaRegex s = true) :
    validateCharacters s = [] := by
  obtain ⟨hlen, hname, hdig, hhomo⟩ := fisicaRegex_parts h
  apply validateCharactersAux_nil
  intro c hc
  rw [str13_decomp hlen] at hc
  rcases List.mem_append.mp hc with hc | hc
  · exact nameChars_valid c (List.elem_iff.mp (hname c hc))
  · rcases List.mem_append.mp hc with hc | hc
    · exact digitChars_valid c (List.elem_iff.mp (hdig c hc))
    · exact homoChars_valid c (List.elem_iff.mp (hhomo c hc))

/-- The character scan is silent on a string passing the MORAL regex. -/
theorem moral_chars_nil {s : Str} (h : moralRegex s = true) :
    validateCharacters s = [] := by
  obtain ⟨hlen, hname, hdig, hhomo⟩ := moralRegex_parts h
  apply validateCharactersAux_nil
  intro c hc
  rw [str12_decomp hlen] at hc
  rcases List.mem_append.mp hc with hc | hc
  · exact nameChars_valid c (List.elem_iff.mp (hname c hc))
  · rcases List.mem_append.mp hc with hc | hc
    · exact digitChars_valid c (List.elem_iff.mp (hdig c hc))
    · exact homoChars_valid c (List.elem_iff.mp (hhomo c hc))

/-- On a string passing the FISICA regex, the whole FISICA validator reduces
to the date check and the forbidden-word check. -/
theorem fisica_errs (yy : Nat) {s : Str} (h : fisicaRegex s = true) :
    validatePersonaFisica yy s =
      validateFechaNacimiento yy (sub s 4 10) ++
        (if FORBIDDEN_WORDS.contains (sub s 0 4) then [forbiddenMsg (sub s 0 4)] else []) := by
  obtain ⟨hlen, hname, hdig, hhomo⟩ := fisicaRegex_parts h
  have hl1 : lettersRegex (sub s 0 2) = true :=
    lettersRegex_true (sub_ne_nil (by omega) (by rw [hlen]; omega))
      (fun c hc => hname c (mem_sub_mono (by omega) (by omega) (by omega) hc))
  have hl2 : lettersRegex (sub s 2 3) = true :=
    lettersRegex_true (sub_ne_nil (by omega) (by rw [hlen]; omega))
      (fun c hc => hname c (mem_sub_mono (by omega) (by omega) (by omega) hc))
  have hl3 : lettersRegex (sub s 3 4) = true :=
    lettersRegex_true (sub_ne_nil (by omega) (by rw [hlen]; omega))
      (fun c hc => hname c (mem_sub_mono (by omega) (by omega) (by omega) hc))
  have hhc : homoclaveRegex (sub s 10 13) = true :=
    homoclaveRegex_true (by rw [length_sub, hlen]; decide) hhomo
  unfold validatePersonaFisica
  rw [if_neg (by simp [h]), validateLetters_nil "Apellido paterno" hl1,
    validateLetters_nil "Apellido materno" hl2, validateLetters_nil "Nombre" hl3,
    validateHomoclave_nil hhc, fisica_chars_nil h]
  simp

/-- On a string passing the MORAL regex, the whole MORAL validator reduces
to the date check and the forbidden-word check. -/
theorem moral_errs {s : Str} (h : moralRegex s = true) :
    validatePersonaMoral s =
      validateFechaConstitucion (sub s 3 9) ++
        (if FORBIDDEN_WORDS.contains (sub s 0 3) then [forbiddenMsg (sub s 0 3)] else []) := by
  obtain ⟨hlen, hname, hdig, hhomo⟩ := moralRegex_parts h
  have hl1 : lettersRegex (sub s 0 3) = true :=
    lettersRegex_true (sub_ne_nil (by omega) (by rw [hlen]; omega)) hname
  have hhc : homoclaveRegex (sub s 9 12) = true :=
    homoclaveRegex_true (by rw [length_sub, hlen]; decide) hhomo
  unfold validatePersonaMoral
  rw [if_neg (by simp [h]), validateLetters_nil "Razón social" hl1,
    validateHomoclave_nil hhc, moral_chars_nil h]
  simp

/-- Any error emitted by `validateLetters` is its fixed message. -/
theorem mem_validateLetters {e : String} {t : Str} {fn : String}
    (h : e ∈ validateLetters t fn) : e = lettersMsg fn := by
  unfold validateLetters at h
  split at h
  · simpa using h
  · simp at h

/-- Any error emitted by `validateHomoclave` is its fixed message. -/
theorem mem_validateHomoclave {e : String} {t : Str}
    (h : e ∈ validateHomoclave t) : e = homoclaveMsg := by
  unfold validateHomoclave at h
  split at h
  · simpa using h
  · simp at h

/-- Any error emitted by `validateFechaConstitucion` is one of its three
fixed messages. -/
theorem mem_validateFechaConst {e : String} {f : Str}
    (h : e ∈ validateFechaConstitucion f) :
    e = fechaConstFormatMsg ∨ e = mesConstMsg ∨ e = diaConstMsg := by
  unfold validateFechaConstitucion at h
  split at h
  · exact Or.inl (by simpa using h)
  · simp only [List.mem_append] at h
    rcases h with h | h
    · split at h
      · exact Or.inr (Or.inl (by simpa using h))
      · simp at h
    · split at h
      · exact Or.inr (Or.inr (by simpa using h))
      · simp at h

/-- Any error emitted by `validateFechaNacimiento` is one of its four
fixed messages. -/
theorem mem_validateFechaNac {yy : Nat} {e : String} {f : Str}
    (h : e ∈ validateFechaNacimiento yy f) :
    e = fechaNacFormatMsg ∨ e = mesNacMsg ∨ e = diaNacMsg ∨ e = anioNacMsg := by
  unfold validateFechaNacimiento at h
  split at h
  · exact Or.inl (by simpa using h)
  · simp only [List.mem_append] at h
    rcases h with (h | h) | h
    · split at h
      · exact Or.inr (Or.inl (by simpa using h))
      · simp at h
    · split at h
      · exact Or.inr (Or.inr (Or.inl (by simpa using h)))
      · simp at h
    · split at h
      · exact Or.inr (Or.inr (Or.inr (by simpa using h)))
      · simp at h

/-- Any error emitted by the character scan is a `charMsg`. -/
theorem mem_validateCharactersAux {e : String} {l : Str} :
    ∀ i, e ∈ validateCharactersAux l i → ∃ c p, e = charMsg c p := by
  induction l with
  | nil =>
    intro i h
    simp [validateCharactersAux] at h
  | cons a rest ih =>
    intro i h
    simp only [validateCharactersAux, List.mem_append] at h
    rcases h with h | h
    · split at h
      · exact ⟨a, i + 1, by simpa using h⟩
      · simp at h
    · exact ih (i + 1) h

/-- Every forbidden-word error starts with the letter `L`. -/
theorem forbiddenMsg_head (w : Str) : (forbiddenMsg w).data.head? = some 'L' := rfl

/-- Every character-scan error starts with the letter `C`. -/
theorem charMsg_head (c : Char) (p : Nat) : (charMsg c p).data.head? = some 'C' := rfl

/-- A message not starting with `L` is no forbidden-word error. -/
theorem ne_forbiddenMsg {m : String} (hm : m.data.head? ≠ some 'L') (w : Str) :
    m ≠ forbiddenMsg w :=
  fun e => hm (by rw [e, forbiddenMsg_head])

/-- A character-scan error differs from any message not starting with `C`. -/
theorem charMsg_ne {c : Char} {p : Nat} {m : String}
    (hm : m.data.head? ≠ some 'C') : charMsg c p ≠ m :=
  fun e => hm (by rw [← e, charMsg_head])

/-- Every entry of the forbidden-word denylist has exactly 4 characters. -/
theorem forbidden_len4 : ∀ w ∈ FORBIDDEN_WORDS, w.length = 4 := by decide

/-- The denylist contains no 3-character string. -/
theorem contains_forbidden_false {w : Str} (h : w.length = 3) :
    FORBIDDEN_WORDS.contains w = false := by
  cases hb : FORBIDDEN_WORDS.contains w
  · rfl
  · exfalso
    have h4 := forbidden_len4 w (List.elem_iff.mp hb)
    omega

/-- Case analysis on the possible errors of the MORAL path: every error is
one of the fixed messages, a forbidden-word error for the leading field
(only when the denylist test succeeds), or a character-scan error. -/
theorem moral_err_cases {s : Str} {e : String} (h : e ∈ validatePersonaMoral s) :
    e = moralFormatMsg ∨ e = lettersMsg "Razón social" ∨ e = fechaConstFormatMsg ∨
      e = mesConstMsg ∨ e = diaConstMsg ∨ e = homoclaveMsg ∨
      (FORBIDDEN_WORDS.contains (sub s 0 3) = true ∧ e = forbiddenMsg (sub s 0 3)) ∨
      (∃ c p, e = charMsg c p) := by
  unfold validatePersonaMoral at h
  cases hb : moralRegex s with
  | false =>
    rw [hb] at h
    simp at h
    exact Or.inl h
  | true =>
    rw [hb] at h
    rw [if_neg (by decide)] at h
    simp only [List.mem_append, or_assoc] at h
    rcases h with h | h | h | h | h
    · have hl := mem_validateLetters h
      tauto
    · have hf := mem_validateFechaConst h
      tauto
    · have hh := mem_validateHomoclave h
      tauto
    · split at h
      next hc =>
        have hfw : e = forbiddenMsg (sub s 0 3) := by simpa using h
        tauto
      next => simp at h
    · have hcs := mem_validateCharactersAux 0 h
      tauto

/-! ### Claim theorems -/

/-- Claim C9: `normalize` is idempotent: for all strings `s`,
`normalize (normalize s) = normalize s`, where `normalize` trims
surrounding whitespace, removes all internal whitespace, and upper-cases
every letter. -/
theorem C9_normalize_idem (s : Str) : normalize (normalize s) = normalize s := by
  rw [normalize_eq_cleanOf s, normalize_eq_cleanOf (cleanOf s)]
  exact cleanOf_idem s

/-- Claim C10: for every non-empty all-whitespace input, `validate` returns
the length error (naming the accepted lengths 12 and 13), not the required
error, with `length = 0`, `format = ""` and `tipoPersona = none`: the
emptiness guard tests the raw string before normalisation. -/
theorem C10_whitespace_only (yy : Nat) (s : Str) (hne : s ≠ [])
    (hws : ∀ c ∈ s, isWS c = true) :
    (validate yy s).errors = [lenMsg] ∧ (validate yy s).length = 0 ∧
      (validate yy s).format = [] ∧ (validate yy s).tipoPersona = none ∧
      requiredMsg ∉ (validate yy s).errors := by
  have hc : cleanOf s = [] := cleanOf_eq_nil_of_ws hws
  have hv := validate_len yy s hne (by rw [hc]; decide) (by rw [hc]; decide)
  rw [hv, hc]
  exact ⟨rfl, rfl, rfl, rfl, by decide⟩

/-- Witness for C10 at the one-space input. -/
theorem C10_witness :
    ([' '] : Str) ≠ [] ∧ (validate 26 [' ']).errors = [lenMsg] ∧
      requiredMsg ∉ (validate 26 [' ']).errors :=
  ⟨by decide, (C10_whitespace_only 26 [' '] (by decide) (by decide)).1,
    (C10_whitespace_only 26 [' '] (by decide) (by decide)).2.2.2.2⟩

/-- Claim C7: `getTipoPersona` classifies by normalised length alone
(13 ↦ FISICA, 12 ↦ MORAL, otherwise none), and `validate`'s `tipoPersona`
always agrees with it, valid or not. -/
theorem C7_classification (yy : Nat) (s : Str) :
    (validate yy s).tipoPersona = getTipoPersona s ∧
      ((normalize s).length = 13 → getTipoPersona s = some TipoPersona.FISICA) ∧
      ((normalize s).length = 12 → getTipoPersona s = some TipoPersona.MORAL) ∧
      ((normalize s).length ≠ 13 → (normalize s).length ≠ 12 →
        getTipoPersona s = none) := by
  rw [normalize_eq_cleanOf]
  have hg13 : (cleanOf s).length = 13 → getTipoPersona s = some TipoPersona.FISICA := by
    intro h
    unfold getTipoPersona
    rw [isEmpty_false_of_ne_nil (ne_nil_of_cleanOf_length h (by omega))]
    simp [h]
  have hg12 : (cleanOf s).length = 12 → getTipoPersona s = some TipoPersona.MORAL := by
    intro h
    unfold getTipoPersona
    rw [isEmpty_false_of_ne_nil (ne_nil_of_cleanOf_length h (by omega))]
    simp [h]
  have hgno : (cleanOf s).length ≠ 13 → (cleanOf s).length ≠ 12 →
      getTipoPersona s = none := by
    intro h1 h2
    unfold getTipoPersona
    by_cases hnil : s.isEmpty
    · rw [if_pos hnil]
    · rw [if_neg hnil]
      simp [h1, h2]
  refine ⟨?_, hg13, hg12, hgno⟩
  by_cases hnil : s = []
  · subst hnil
    rfl
  · by_cases h13 : (cleanOf s).length = 13
    · rw [validate_fisica yy s h13, hg13 h13]
    · by_cases h12 : (cleanOf s).length = 12
      · rw [validate_moral yy s h12, hg12 h12]
      · rw [validate_len yy s hnil h12 h13, hgno h13 h12]

/-- Witness for C7 at the C2 scenario input. -/
theorem C7_witness :
    (validate 26 gopeInput).tipoPersona = getTipoPersona gopeInput ∧
      getTipoPersona gopeInput = some TipoPersona.FISICA :=
  ⟨(C7_classification 26 gopeInput).1,
    (C7_classification 26 gopeInput).2.1 (by decide)⟩

/-- Claim C8: `validate` returns `isValid = true` iff the error list is
empty, and every early-exit path (missing input, bad length, failed
overall format regex) leaves `isValid = false` with a non-empty list. -/
theorem C8_isValid_iff (yy : Nat) (s : Str) :
    ((validate yy s).isValid = true ↔ (validate yy s).errors = []) ∧
      (s = [] → (validate yy s).isValid = false ∧ (validate yy s).errors ≠ []) ∧
      ((s ≠ [] ∧ (normalize s).length ≠ 12 ∧ (normalize s).length ≠ 13) →
        (validate yy s).isValid = false ∧ (validate yy s).errors ≠ []) ∧
      (((normalize s).length = 13 ∧ fisicaRegex (normalize s) = false) →
        (validate yy s).isValid = false ∧ (validate yy s).errors ≠ []) ∧
      (((normalize s).length = 12 ∧ moralRegex (normalize s) = false) →
        (validate yy s).isValid = false ∧ (validate yy s).errors ≠ []) := by
  rw [normalize_eq_cleanOf]
  by_cases hnil : s = []
  · subst hnil
    rw [validate_nil]
    refine ⟨by simp, fun _ => ⟨rfl, by simp⟩, ?_, ?_, ?_⟩
    · rintro ⟨h, -, -⟩
      exact absurd rfl h
    · rintro ⟨h, -⟩
      simp [show cleanOf ([] : Str) = [] from rfl] at h
    · rintro ⟨h, -⟩
      simp [show cleanOf ([] : Str) = [] from rfl] at h
  · by_cases h13 : (cleanOf s).length = 13
    · rw [validate_fisica yy s h13]
      refine ⟨by simp [List.isEmpty_iff], fun he => absurd he hnil, ?_, ?_, ?_⟩
      · rintro ⟨-, -, h⟩
        exact absurd h13 h
      · rintro ⟨-, hreg⟩
        have hform : validatePersonaFisica yy (cleanOf s) = [fisicaFormatMsg] := by
          unfold validatePersonaFisica
          rw [hreg]
          simp
        simp [hform]
      · rintro ⟨h12, -⟩
        omega
    · by_cases h12 : (cleanOf s).length = 12
      · rw [validate_moral yy s h12]
        refine ⟨by simp [List.isEmpty_iff], fun he => absurd he hnil, ?_, ?_, ?_⟩
        · rintro ⟨-, h, -⟩
          exact absurd h12 h
        · rintro ⟨h13x, -⟩
          omega
        · rintro ⟨-, hreg⟩
          have hform : validatePersonaMoral (cleanOf s) = [moralFormatMsg] := by
            unfold validatePersonaMoral
            rw [hreg]
            simp
          simp [hform]
      · rw [validate_len yy s hnil h12 h13]
        refine ⟨by simp, fun he => absurd he hnil, fun _ => ⟨rfl, by simp⟩, ?_, ?_⟩
        · rintro ⟨h, -⟩
          exact absurd h h13
        · rintro ⟨h, -⟩
          exact absurd h h12

/-- Witness for C8 at the spec scenario `AB12`. -/
theorem C8_witness :
    ((validate 26 ("AB12".data)).isValid = true ↔
      (validate 26 ("AB12".data)).errors = []) ∧
      (validate 26 ("AB12".data)).isValid = false ∧
      (validate 26 ("AB12".data)).errors ≠ [] :=
  ⟨(C8_isValid_iff 26 ("AB12".data)).1,
    (C8_isValid_iff 26 ("AB12".data)).2.2.1 ⟨by decide, by decide, by decide⟩⟩

/-- Claim C4: on the MORAL path the forbidden-word check can never fire:
every denylist entry has 4 characters while the leading MORAL field has 3,
so the membership test is unsatisfiable and no forbidden-word error is
ever reported for a normalised length-12 input. -/
theorem C4_moral_no_forbidden (yy : Nat) (s : Str)
    (h : (normalize s).length = 12) :
    (∀ w ∈ FORBIDDEN_WORDS, w.length = 4) ∧
      FORBIDDEN_WORDS.contains (sub (normalize s) 0 3) = false ∧
      ∀ e ∈ (validate yy s).errors, ∀ w : Str, e ≠ forbiddenMsg w := by
  rw [normalize_eq_cleanOf] at h ⊢
  have hlen3 : (sub (cleanOf s) 0 3).length = 3 := by
    rw [length_sub, h]
    decide
  refine ⟨forbidden_len4, contains_forbidden_false hlen3, ?_⟩
  intro e he w
  rw [validate_moral yy s h] at he
  rcases moral_err_cases he with h1 | h1 | h1 | h1 | h1 | h1 | h1 | h1
  · subst h1
    exact ne_forbiddenMsg (by decide) w
  · subst h1
    exact ne_forbiddenMsg (by decide) w
  · subst h1
    exact ne_forbiddenMsg (by decide) w
  · subst h1
    exact ne_forbiddenMsg (by decide) w
  · subst h1
    exact ne_forbiddenMsg (by decide) w
  · subst h1
    exact ne_forbiddenMsg (by decide) w
  · rw [contains_forbidden_false hlen3] at h1
    exact absurd h1.1 (by decide)
  · obtain ⟨c, p, rfl⟩ := h1
    exact charMsg_ne (by rw [forbiddenMsg_head]; decide)

/-- Witness for C4 at twelve letters `A`. -/
theorem C4_witness :
    (normalize twelveA).length = 12 ∧
      FORBIDDEN_WORDS.contains (sub (normalize twelveA) 0 3) = false :=
  ⟨by decide, (C4_moral_no_forbidden 26 twelveA (by decide)).2.1⟩

/-- Claim C5: for a normalised 13-character input passing the FISICA format
regex, the implausible-birth-year error is reported iff the two-digit year
exceeds the current two-digit year plus 10; for a normalised 12-character
input no such error is ever reported. -/
theorem C5_year_plausibility (yy : Nat) (s : Str) :
    ((normalize s).length = 13 → fisicaRegex (normalize s) = true →
      (anioNacMsg ∈ (validate yy s).errors ↔
        yy + 10 < twoDigits (sub (normalize s) 4 10) 0)) ∧
      ((normalize s).length = 12 → anioNacMsg ∉ (validate yy s).errors) := by
  rw [normalize_eq_cleanOf]
  constructor
  · intro h13 hreg
    rw [validate_fisica yy s h13]
    show anioNacMsg ∈ validatePersonaFisica yy (cleanOf s) ↔ _
    rw [fisica_errs yy hreg]
    obtain ⟨hlen, hname, hdig, hhomo⟩ := fisicaRegex_parts hreg
    have hfr : fechaRegex (sub (cleanOf s) 4 10) = true :=
      fechaRegex_true (by rw [length_sub, hlen]; decide) hdig
    unfold validateFechaNacimiento
    rw [hfr]
    rw [if_neg (by decide)]
    have hne1 : anioNacMsg ≠ mesNacMsg := by decide
    have hne2 : anioNacMsg ≠ diaNacMsg := by decide
    have hne4 : ∀ w, anioNacMsg ≠ forbiddenMsg w := ne_forbiddenMsg (by decide)
    by_cases h1 : twoDigits (sub (cleanOf s) 4 10) 2 < 1 ∨
        12 < twoDigits (sub (cleanOf s) 4 10) 2 <;>
      by_cases h2 : twoDigits (sub (cleanOf s) 4 10) 4 < 1 ∨
        31 < twoDigits (sub (cleanOf s) 4 10) 4 <;>
      by_cases h3 : yy + 10 < twoDigits (sub (cleanOf s) 4 10) 0 <;>
      by_cases h4 : FORBIDDEN_WORDS.contains (sub (cleanOf s) 0 4) = true <;>
      simp [h1, h2, h3, h4, hne1, hne2, hne4]
  · intro h12 he
    rw [validate_moral yy s h12] at he
    rcases moral_err_cases he with h1 | h1 | h1 | h1 | h1 | h1 | h1 | h1
    · exact absurd h1 (by decide)
    · exact absurd h1 (by decide)
    · exact absurd h1 (by decide)
    · exact absurd h1 (by decide)
    · exact absurd h1 (by decide)
    · exact absurd h1 (by decide)
    · exact ne_forbiddenMsg (by decide) _ h1.2
    · obtain ⟨c, p, hcp⟩ := h1
      exact charMsg_ne (by decide) hcp.symm

/-- Witness for C5: the year error fires at current year 26 on the C2
scenario input (year 65) and never on a MORAL input. -/
theorem C5_witness :
    (anioNacMsg ∈ (validate 26 gopeInput).errors ↔
      26 + 10 < twoDigits (sub (normalize gopeInput) 4 10) 0) ∧
      anioNacMsg ∉ (validate 26 tubInput).errors :=
  ⟨(C5_year_plausibility 26 gopeInput).1 (by decide) (by decide),
    (C5_year_plausibility 26 tubInput).2 (by decide)⟩

/-- Claim C1 counterexample: on thirteen letters `A` the granular date
check by itself would report a format error, yet `validate` returns only
the coarse FISICA format error — the early return suppresses the granular
checks, contradicting the claim. -/
theorem C1_counterexample :
    (normalize thirteenA).length = 13 ∧
      fisicaRegex (normalize thirteenA) = false ∧
      validateFechaNacimiento 26 (sub (normalize thirteenA) 4 10) = [fechaNacFormatMsg] ∧
      (validate 26 thirteenA).errors = [fisicaFormatMsg] ∧
      fechaNacFormatMsg ∉ (validate 26 thirteenA).errors := by decide

/-- Claim C1 amended: when the normalised form has length 13 (resp. 12)
but fails the variant's overall format regex, `validate` returns exactly
the single coarse format error; the granular field checks contribute only
when the overall regex passes. -/
theorem C1_amended (yy : Nat) (s : Str) :
    ((normalize s).length = 13 → fisicaRegex (normalize s) = false →
      (validate yy s).errors = [fisicaFormatMsg]) ∧
      ((normalize s).length = 12 → moralRegex (normalize s) = false →
        (validate yy s).errors = [moralFormatMsg]) := by
  rw [normalize_eq_cleanOf]
  constructor
  · intro h13 hreg
    rw [validate_fisica yy s h13]
    show validatePersonaFisica yy (cleanOf s) = _
    unfold validatePersonaFisica
    rw [hreg]
    simp
  · intro h12 hreg
    rw [validate_moral yy s h12]
    show validatePersonaMoral (cleanOf s) = _
    unfold validatePersonaMoral
    rw [hreg]
    simp

/-- Witness for the amended C1 on both variants. -/
theorem C1_witness :
    (normalize thirteenA).length = 13 ∧ fisicaRegex (normalize thirteenA) = false ∧
      (validate 26 thirteenA).errors = [fisicaFormatMsg] ∧
      (normalize twelveA).length = 12 ∧ moralRegex (normalize twelveA) = false ∧
      (validate 26 twelveA).errors = [moralFormatMsg] :=
  ⟨by decide, by decide, (C1_amended 26 thirteenA).1 (by decide) (by decide),
    by decide, by decide, (C1_amended 26 twelveA).2 (by decide) (by decide)⟩

/-- Claim C2 counterexample: at the present two-digit year 26 the year
field 65 exceeds 26 + 10, so `validate "GOPE650615ABC"` is invalid (with
exactly the implausible-year error), not valid as claimed. -/
theorem C2_counterexample :
    (validate 26 gopeInput).isValid = false ∧
      (validate 26 gopeInput).errors = [anioNacMsg] := by decide

/-- Claim C2 amended: `validate "GOPE650615ABC"` always classifies as
FISICA, and is valid exactly when the current two-digit year is at least
55 (so that year 65 passes the plausibility check); at the present year
26 it is invalid. -/
theorem C2_amended (yy : Nat) :
    (validate yy gopeInput).tipoPersona = some TipoPersona.FISICA ∧
      ((validate yy gopeInput).isValid = true ↔ 55 ≤ yy) := by
  have hclean : cleanOf gopeInput = gopeInput := by decide
  have h13 : (cleanOf gopeInput).length = 13 := by decide
  rw [validate_fisica yy gopeInput h13]
  refine ⟨rfl, ?_⟩
  show (validatePersonaFisica yy (cleanOf gopeInput)).isEmpty = true ↔ 55 ≤ yy
  rw [hclean]
  have hreg : fisicaRegex gopeInput = true := by decide
  rw [fisica_errs yy hreg]
  rw [if_neg (by decide)]
  have hfr : fechaRegex (sub gopeInput 4 10) = true := by decide
  unfold validateFechaNacimiento
  rw [hfr]
  rw [if_neg (by decide)]
  rw [if_neg (by decide)]
  rw [if_neg (by decide)]
  have htd : twoDigits (sub gopeInput 4 10) 0 = 65 := by decide
  rw [htd]
  by_cases h3 : yy + 10 < 65
  · rw [if_pos h3]
    simp
    omega
  · rw [if_neg h3]
    simp
    omega

/-- Claim C3 counterexample: an input carrying all three defects at once —
forbidden leading word `CACA`, month 13 and a 4-character homoclave —
necessarily has 14 characters, and `validate` reports only the single
length error, not three entries. -/
theorem C3_counterexample :
    FORBIDDEN_WORDS.contains (sub (normalize cacaInput14) 0 4) = true ∧
      twoDigits (sub (normalize cacaInput14) 4 10) 2 = 13 ∧
      validateHomoclave (sub (normalize cacaInput14) 10 14) = [homoclaveMsg] ∧
      (validate 26 cacaInput14).errors = [lenMsg] := by decide

/-- Claim C3 amended: a 13-character input passing the overall format with
a forbidden leading word, a month outside `[1,12]` and a day outside
`[1,31]` (here `CACA991340ABC`) yields at least 3 distinct error entries;
a wrong-length homoclave cannot co-occur with other reported defects
because it triggers a single-error early return. -/
theorem C3_amended (yy : Nat) :
    mesNacMsg ∈ (validate yy cacaInput13).errors ∧
      diaNacMsg ∈ (validate yy cacaInput13).errors ∧
      forbiddenMsg ("CACA".data) ∈ (validate yy cacaInput13).errors ∧
      mesNacMsg ≠ diaNacMsg ∧ mesNacMsg ≠ forbiddenMsg ("CACA".data) ∧
      diaNacMsg ≠ forbiddenMsg ("CACA".data) := by
  have h13 : (cleanOf cacaInput13).length = 13 := by decide
  have hclean : cleanOf cacaInput13 = cacaInput13 := by decide
  have hreg : fisicaRegex cacaInput13 = true := by decide
  have hsub04 : sub cacaInput13 0 4 = "CACA".data := by decide
  have hE : (validate yy cacaInput13).errors =
      validateFechaNacimiento yy (sub cacaInput13 4 10) ++
        [forbiddenMsg ("CACA".data)] := by
    rw [validate_fisica yy cacaInput13 h13]
    show validatePersonaFisica yy (cleanOf cacaInput13) = _
    rw [hclean, fisica_errs yy hreg, hsub04, if_pos (by decide)]
  rw [hE]
  have hfr : fechaRegex (sub cacaInput13 4 10) = true := by decide
  unfold validateFechaNacimiento
  rw [hfr]
  rw [if_neg (by decide)]
  rw [if_pos (by decide)]
  rw [if_pos (by decide)]
  refine ⟨by simp, by simp, by simp, by decide, ?_, ?_⟩
  · exact ne_forbiddenMsg (by decide) _
  · exact ne_forbiddenMsg (by decide) _

/-- Claim C6: round-trip example generation: for each person type, the
generated example validates as valid with the matching person type, with
generation and validation evaluated at the same current two-digit year
(any year from 25 to 99; today the year is 26). -/
theorem C6_roundtrip (yy : Nat) (h1 : yy < 100) (h2 : 25 ≤ yy) (t : TipoPersona) :
    (validate yy (generateExample yy t)).isValid = true ∧
      (validate yy (generateExample yy t)).tipoPersona = some t := by
  cases t
  · revert yy
    decide
  · revert yy
    decide

/-- Witness for C6 at the current year 26. -/
theorem C6_witness :
    (26 < 100 ∧ 25 ≤ 26) ∧
      (validate 26 (generateExample 26 TipoPersona.FISICA)).isValid = true ∧
      (validate 26 (generateExample 26 TipoPersona.MORAL)).isValid = true ∧
      (validate 26 (generateExample 26 TipoPersona.MORAL)).tipoPersona =
        some TipoPersona.MORAL :=
  ⟨⟨by decide, by decide⟩,
    (C6_roundtrip 26 (by decide) (by decide) TipoPersona.FISICA).1,
    (C6_roundtrip 26 (by decide) (by decide) TipoPersona.MORAL).1,
    (C6_roundtrip 26 (by decide) (by decide) TipoPersona.MORAL).2⟩

end RFCSpec
